import Mathlib

/-!
Shallow embedding of `src/hello.py` (Beastmaster's Ledge dashboard script).

The script's data logic is:
  * `parse_cr` (lines 7-13): parse a raw CR value into a float or `None`;
    the fraction branch `float(Fraction(cr))` sits OUTSIDE the `try`, so a
    string containing `/` that is a zero-denominator fraction raises
    `ZeroDivisionError`, and a malformed slash-string raises `ValueError`.
  * derivation (lines 26-27): `cr_num = cr.apply(parse_cr)`,
    `survivability = ac * hp` (NaN propagates when either is missing).
  * slider/checkbox defaults (lines 33-85): min/max of the observed `ac`
    and `hp` columns, `0.0` and the observed max of `cr_num` for CR,
    `False` for the legendary checkbox.
  * filter (lines 88-98): boolean-mask conjunction of the six range
    comparisons (a missing value fails every comparison, as NaN does in
    pandas), then, if the checkbox is set, `legendary == "Legendary"`.
  * rankings (lines 220-221): `nlargest(10, 'survivability')` and
    `nsmallest(10, 'survivability')`; pandas (1.4+) computes these as
    `sort_values(...).head(n)`: rows with a present key come first in key
    order (stable, ties keep first occurrence), rows whose key is NaN are
    placed after all present-key rows and act as padding whenever fewer
    than `n` rows have a present key, and the result is truncated to `n`.

Missing values (pandas `NaN` / `None`) are modelled with `Option`; numeric
values with `Int` (the integer columns `ac`, `hp`) and `ℚ` (the float
column `cr_num`).  A raised Python exception is modelled with
`Except.error`.  Only the columns that the verified properties mention are
modelled on records (`name`, `cr`, `ac`, `hp`, `legendary`); the remaining
columns (`type`, `size`, `speed`, `align`, the six ability scores,
`source`) are carried by no claim and projections never drop rows.
-/

/-- Python exceptions that the script's own code can raise. -/
inductive PyError
  | zeroDivision
  | valueError
deriving DecidableEq, Repr

/-- Shape of a raw CR cell, as `parse_cr` case-splits on it:
a string containing `/` that `Fraction` accepts (numerator `a`, nonnegative
denominator `b`), a string containing `/` that `Fraction` rejects, a numeric
string without `/`, a non-numeric string without `/`, an already-numeric
value, or a null. -/
inductive CRInput
  | fracStr (a : Int) (b : Nat)
  | badSlashStr
  | numStr (q : ℚ)
  | otherStr
  | num (q : ℚ)
  | null
deriving DecidableEq, Repr

/-- Embedding of `parse_cr` (src/hello.py lines 7-13).  The fraction branch
is outside the `try`: `Fraction("a/0")` raises `ZeroDivisionError` and a
malformed slash-string raises `ValueError`; every other input goes through
`float(...)` inside the `try` and degrades to `None` on failure. -/
def parse_cr : CRInput → Except PyError (Option ℚ)
  | .fracStr a b => if b = 0 then .error .zeroDivision else .ok (some ((a : ℚ) / (b : ℚ)))
  | .badSlashStr => .error .valueError
  | .numStr q => .ok (some q)
  | .otherStr => .ok none
  | .num q => .ok (some q)
  | .null => .ok none

/-- One row of the loaded `monsters` table, restricted to the columns the
verified properties mention.  `ac` and `hp` are integer columns that may
hold missing values; `legendary` is the string `"Legendary"` or null. -/
structure MonsterRecord where
  name : String
  cr : CRInput
  ac : Option Int
  hp : Option Int
  legendary : Option String
deriving DecidableEq, Repr

/-- A row after the derivation step: the original row plus the two derived
columns `cr_num` and `survivability`. -/
structure DerivedRecord where
  base : MonsterRecord
  cr_num : Option ℚ
  survivability : Option Int
deriving DecidableEq, Repr

/-- Embedding of `df['ac'] * df['hp']` on one row: NaN propagates, so the
product is missing whenever either factor is. -/
def survProduct (ac hp : Option Int) : Option Int :=
  match ac, hp with
  | some a, some h => some (a * h)
  | _, _ => none

/-- Derivation step (src/hello.py lines 26-27) for one row: `cr_num` from
`parse_cr` (whose exception, if any, propagates out of `.apply`), and
`survivability = ac * hp`. -/
def deriveRecord (r : MonsterRecord) : Except PyError DerivedRecord :=
  (parse_cr r.cr).map fun c =>
    { base := r, cr_num := c, survivability := survProduct r.ac r.hp }

/-- Derivation of the whole table; a parse exception on any row aborts the
script. -/
def deriveTable (df : List MonsterRecord) : Except PyError (List DerivedRecord) :=
  df.mapM deriveRecord

/-- The six range parameters and the boolean read from the widgets. -/
structure FilterCriteria where
  min_ac : Int
  max_ac : Int
  min_hp : Int
  max_hp : Int
  min_cr : ℚ
  max_cr : ℚ
  legendary_only : Bool
deriving DecidableEq, Repr

/-- Embedding of a pandas `column >= bound` comparison on one cell: a
missing value (NaN) compares false. -/
def geOpt {α : Type} [LinearOrder α] (x : Option α) (lo : α) : Bool :=
  match x with
  | some v => decide (lo ≤ v)
  | none => false

/-- Embedding of a pandas `column <= bound` comparison on one cell: a
missing value (NaN) compares false. -/
def leOpt {α : Type} [LinearOrder α] (x : Option α) (hi : α) : Bool :=
  match x with
  | some v => decide (v ≤ hi)
  | none => false

/-- The conjunction of the six range comparisons (src/hello.py lines
89-96). -/
def recordMask (c : FilterCriteria) (d : DerivedRecord) : Bool :=
  geOpt d.base.ac c.min_ac && leOpt d.base.ac c.max_ac &&
  geOpt d.base.hp c.min_hp && leOpt d.base.hp c.max_hp &&
  geOpt d.cr_num c.min_cr && leOpt d.cr_num c.max_cr

/-- Embedding of `df_filt["legendary"] == "Legendary"` on one row: a null
cell compares unequal to the string, hence false. -/
def legendaryMask (d : DerivedRecord) : Bool :=
  decide (d.base.legendary = some "Legendary")

/-- Embedding of the filter stage (src/hello.py lines 88-98): the boolean
mask of the six range comparisons, then, when the checkbox is set, the
legendary equality mask. -/
def df_filt (c : FilterCriteria) (df : List DerivedRecord) : List DerivedRecord :=
  let m := df.filter (recordMask c)
  if c.legendary_only then m.filter legendaryMask else m

/-- The default widget values (src/hello.py lines 33-85): observed min/max
of the `ac` and `hp` columns (pandas `min`/`max` skip missing cells; the
`int(...)` coercion is exact on these integer columns), `0.0` for min CR,
the observed max of `cr_num` for max CR, and an unchecked checkbox.
`none` models the crash of `int(NaN)` / the NaN slider bound when a column
has no observed value at all. -/
def defaultCriteria (df : List DerivedRecord) : Option FilterCriteria :=
  match (df.filterMap fun d => d.base.ac).min?, (df.filterMap fun d => d.base.ac).max?,
        (df.filterMap fun d => d.base.hp).min?, (df.filterMap fun d => d.base.hp).max?,
        (df.filterMap fun d => d.cr_num).max? with
  | some minAC, some maxAC, some minHP, some maxHP, some maxCR =>
      some ⟨minAC, maxAC, minHP, maxHP, 0, maxCR, false⟩
  | _, _, _, _, _ => none

/-- Sort key used by the rankings; it is only ever applied to rows that
survived the `isSome` filter, so the default is never read. -/
def survKey (d : DerivedRecord) : Int := d.survivability.getD 0

/-- Rows with a present ranking key, in table order. -/
def rankable (df : List DerivedRecord) : List DerivedRecord :=
  df.filter (fun d => d.survivability.isSome)

/-- Rows whose ranking key is missing, in table order.  Pandas
`sort_values` places them after every present-key row (NaN sorts last for
either direction), so `nlargest`/`nsmallest` use them as padding whenever
fewer than `n` rows have a present key. -/
def unrankable (df : List DerivedRecord) : List DerivedRecord :=
  df.filter (fun d => !d.survivability.isSome)

/-- Embedding of `df.nlargest(n, 'survivability')` (src/hello.py line
220), which pandas 1.4+ computes as
`sort_values('survivability', ascending=False).head(n)`: present-key rows
stable-sorted descending by the key, then the missing-key rows, truncated
to the first `n`. -/
def nlargest (n : Nat) (df : List DerivedRecord) : List DerivedRecord :=
  ((rankable df).mergeSort (fun a b => decide (survKey b ≤ survKey a)) ++
    unrankable df).take n

/-- Embedding of `df.nsmallest(n, 'survivability')` (src/hello.py line
221), which pandas 1.4+ computes as
`sort_values('survivability', ascending=True).head(n)`: present-key rows
stable-sorted ascending by the key, then the missing-key rows, truncated
to the first `n`. -/
def nsmallest (n : Nat) (df : List DerivedRecord) : List DerivedRecord :=
  ((rankable df).mergeSort (fun a b => decide (survKey a ≤ survKey b)) ++
    unrankable df).take n

/-- Example row: CR string "1/4", AC 15, HP 7, not legendary. -/
def recGoblin : MonsterRecord := ⟨"Goblin", .fracStr 1 4, some 15, some 7, none⟩

/-- The Goblin row after derivation. -/
def drGoblin : DerivedRecord := ⟨recGoblin, some ((1 : ℚ) / (4 : ℚ)), some 105⟩

/-- Derived row with every numeric cell present. -/
def drA : DerivedRecord :=
  ⟨⟨"Aboleth", .num 10, some 17, some 135, some "Legendary"⟩, some 10, some 2295⟩

/-- Derived row whose raw CR was null, hence `cr_num` missing. -/
def drB : DerivedRecord := ⟨⟨"Bandit", .null, some 12, some 11, none⟩, none, some 132⟩

/-- Two-row table: one full row and one row with missing `cr_num`. -/
def dfC2 : List DerivedRecord := [drA, drB]

/-- The default criteria the sliders compute on `dfC2`. -/
def cC2 : FilterCriteria := ⟨12, 17, 11, 135, 0, 10, false⟩

/-- The default criteria the sliders compute on the one-row table
`[drGoblin]`. -/
def cG : FilterCriteria := ⟨15, 15, 7, 7, 0, (1 : ℚ) / (4 : ℚ), false⟩

/-- Derived row with a present but negative `cr_num`. -/
def drNeg : DerivedRecord := ⟨⟨"Odd", .num (-1), some 10, some 10, none⟩, some (-1), some 100⟩

/-- The default criteria the sliders compute on `[drNeg]`. -/
def cNeg : FilterCriteria := ⟨10, 10, 10, 10, 0, -1, false⟩

/-- Derived row with missing `ac`, hence missing survivability. -/
def drNoAC : DerivedRecord := ⟨⟨"Wisp", .num 2, none, some 5, none⟩, some 2, none⟩

/-- Wide concrete criteria. -/
def cWide : FilterCriteria := ⟨0, 100, 0, 1000, 0, 30, false⟩

/-- Row `i` of the twenty-row ranking example: AC `i+1`, HP 1,
survivability `i+1`. -/
def mkRow (i : Nat) : DerivedRecord :=
  ⟨⟨"Beast", .num 1, some ((i : Int) + 1), some 1, none⟩, some 1, some ((i : Int) + 1)⟩

/-- Twenty rows with pairwise-distinct survivability values. -/
def df20 : List DerivedRecord := (List.range 20).map mkRow

/-! ## Helper lemmas -/

/-- Membership in the filtered table, unfolding the two-step mask. -/
theorem mem_df_filt_iff {c : FilterCriteria} {df : List DerivedRecord} {d : DerivedRecord} :
    d ∈ df_filt c df ↔
      d ∈ df ∧ recordMask c d = true ∧
        (c.legendary_only = true → legendaryMask d = true) := by
  unfold df_filt
  by_cases h : c.legendary_only = true <;>
    simp [h, List.mem_filter, and_assoc]
  tauto

/-- The six-fold range mask holds exactly when the three cells are present
and inside their inclusive bounds. -/
theorem recordMask_eq_true_iff {c : FilterCriteria} {d : DerivedRecord} :
    recordMask c d = true ↔
      (∃ a, d.base.ac = some a ∧ c.min_ac ≤ a ∧ a ≤ c.max_ac) ∧
      (∃ h, d.base.hp = some h ∧ c.min_hp ≤ h ∧ h ≤ c.max_hp) ∧
      (∃ q, d.cr_num = some q ∧ c.min_cr ≤ q ∧ q ≤ c.max_cr) := by
  obtain ⟨⟨name, cr, ac, hp, leg⟩, crn, surv⟩ := d
  unfold recordMask
  cases ac <;> cases hp <;> cases crn <;>
    simp [geOpt, leOpt, and_assoc]

/-! ## Claim theorems -/

/-- C1 (refuted by the code, confirming the spec's intent is violated): the
CR parser DOES raise on the fraction path, because `float(Fraction(cr))` is
outside the `try`: the string "1/0" raises `ZeroDivisionError` and the
malformed slash-string "a/b" raises `ValueError`, instead of degrading to
the missing value as the spec requires. -/
theorem parse_cr_raises_on_bad_fraction :
    parse_cr (CRInput.fracStr 1 0) = Except.error PyError.zeroDivision ∧
    parse_cr CRInput.badSlashStr = Except.error PyError.valueError := by
  exact ⟨rfl, rfl⟩

/-- C4: the CR parser maps a well-formed fraction string "a/b" with b ≠ 0
to the float a/b, passes already-numeric input through as a float, and
maps a null input to the missing value. -/
theorem parse_cr_correct (a : Int) (b : Nat) (hb : b ≠ 0) :
    parse_cr (CRInput.fracStr a b) = Except.ok (some ((a : ℚ) / (b : ℚ))) ∧
    (∀ q : ℚ, parse_cr (CRInput.num q) = Except.ok (some q)) ∧
    (∀ q : ℚ, parse_cr (CRInput.numStr q) = Except.ok (some q)) ∧
    parse_cr CRInput.null = Except.ok none := by
  refine ⟨?_, fun q => rfl, fun q => rfl, rfl⟩
  simp [parse_cr, hb]

/-- C4 witness: instantiated at the spec's example "1/4" (which evaluates
to 0.25). -/
theorem parse_cr_correct_witness :
    (4 : Nat) ≠ 0 ∧
    (parse_cr (CRInput.fracStr 1 4) = Except.ok (some ((1 : ℚ) / (4 : ℚ))) ∧
     (∀ q : ℚ, parse_cr (CRInput.num q) = Except.ok (some q)) ∧
     (∀ q : ℚ, parse_cr (CRInput.numStr q) = Except.ok (some q)) ∧
     parse_cr CRInput.null = Except.ok none) ∧
    (1 : ℚ) / (4 : ℚ) = (25 : ℚ) / 100 :=
  ⟨by decide, parse_cr_correct 1 4 (by decide), by norm_num⟩

/-- C5: whenever derivation succeeds, the derived survivability equals
`ac * hp` when both are present, is missing when either is missing, and
all original fields are unchanged. -/
theorem survivability_correct (r : MonsterRecord) (d : DerivedRecord)
    (hd : deriveRecord r = Except.ok d) :
    (∀ a h, r.ac = some a → r.hp = some h → d.survivability = some (a * h)) ∧
    ((r.ac = none ∨ r.hp = none) → d.survivability = none) ∧
    d.base = r := by
  have hsp : d.survivability = survProduct r.ac r.hp ∧ d.base = r := by
    unfold deriveRecord at hd
    cases hc : parse_cr r.cr <;> rw [hc] at hd <;>
      simp [Except.map] at hd
    subst hd
    exact ⟨rfl, rfl⟩
  obtain ⟨hs, hb⟩ := hsp
  refine ⟨?_, ?_, hb⟩
  · intro a h ha hh
    rw [hs, ha, hh]
    rfl
  · rintro (hm | hm)
    · rw [hs, hm]; cases r.hp <;> rfl
    · rw [hs, hm]; cases r.ac <;> rfl

/-- C5 witness: instantiated at the Goblin row (AC 15, HP 7, product 105). -/
theorem survivability_correct_witness :
    deriveRecord recGoblin = Except.ok drGoblin ∧
    ((∀ a h, recGoblin.ac = some a → recGoblin.hp = some h →
        drGoblin.survivability = some (a * h)) ∧
     ((recGoblin.ac = none ∨ recGoblin.hp = none) → drGoblin.survivability = none) ∧
     drGoblin.base = recGoblin) :=
  ⟨rfl, survivability_correct recGoblin drGoblin rfl⟩

/-- C3: a record is in the filtered table exactly when it is in the input
table, its `ac`, `hp` and `cr_num` cells are present and inside the
inclusive bounds (a missing cell fails the comparison), and, when the
legendary-only flag is set, its `legendary` cell is exactly the string
"Legendary" (a null cell fails the equality). -/
theorem df_filt_mem_iff_spec (c : FilterCriteria) (df : List DerivedRecord)
    (d : DerivedRecord) :
    d ∈ df_filt c df ↔
      d ∈ df ∧
      (∃ a, d.base.ac = some a ∧ c.min_ac ≤ a ∧ a ≤ c.max_ac) ∧
      (∃ h, d.base.hp = some h ∧ c.min_hp ≤ h ∧ h ≤ c.max_hp) ∧
      (∃ q, d.cr_num = some q ∧ c.min_cr ≤ q ∧ q ≤ c.max_cr) ∧
      (c.legendary_only = true → d.base.legendary = some "Legendary") := by
  rw [mem_df_filt_iff, recordMask_eq_true_iff]
  unfold legendaryMask
  constructor
  · rintro ⟨hmem, ⟨hac, hhp, hcr⟩, hleg⟩
    exact ⟨hmem, hac, hhp, hcr, fun hl => of_decide_eq_true (hleg hl)⟩
  · rintro ⟨hmem, hac, hhp, hcr, hleg⟩
    exact ⟨hmem, ⟨hac, hhp, hcr⟩, fun hl => decide_eq_true (hleg hl)⟩

/-- C10: a record with a missing `ac` or a missing `hp` cell is excluded
by the filter stage for every criteria, because a missing value fails
every range comparison. -/
theorem missing_ac_hp_excluded (c : FilterCriteria) (df : List DerivedRecord)
    (d : DerivedRecord) (hmiss : d.base.ac = none ∨ d.base.hp = none) :
    d ∉ df_filt c df := by
  intro hmem
  have hmask := (mem_df_filt_iff.mp hmem).2.1
  rw [recordMask_eq_true_iff] at hmask
  obtain ⟨⟨a, ha, -⟩, ⟨h, hh, -⟩, -⟩ := hmask
  rcases hmiss with hm | hm
  · rw [hm] at ha; exact Option.noConfusion ha
  · rw [hm] at hh; exact Option.noConfusion hh

/-- C10 witness: the row with missing `ac` is excluded even by wide-open
bounds. -/
theorem missing_ac_hp_excluded_witness :
    drNoAC ∉ df_filt cWide [drNoAC] :=
  missing_ac_hp_excluded cWide [drNoAC] drNoAC (Or.inl rfl)

/-- C8: the filter stage returns an order-preserving subsequence of the
input table (pairs of surviving records keep their relative order, and no
record gains an occurrence). -/
theorem df_filt_sublist (c : FilterCriteria) (df : List DerivedRecord) :
    (df_filt c df).Sublist df := by
  unfold df_filt
  by_cases h : c.legendary_only = true <;> simp [h]

/-- C6: the filter stage is idempotent: filtering an already-filtered
table with the same criteria returns it unchanged. -/
theorem df_filt_idempotent (c : FilterCriteria) (df : List DerivedRecord) :
    df_filt c (df_filt c df) = df_filt c df := by
  unfold df_filt
  by_cases h : c.legendary_only = true <;>
    simp only [h, if_true, Bool.false_eq_true, if_false, List.filter_filter] <;>
    apply List.filter_congr <;>
    intro a _
  · cases recordMask c a <;> cases legendaryMask a <;> rfl
  · cases recordMask c a <;> rfl

/-- An observed minimum is below every observed value. -/
theorem min?_le_of_mem {α : Type} [LinearOrder α] {l : List α} {m a : α}
    (hm : l.min? = some m) (ha : a ∈ l) : m ≤ a :=
  (List.le_min?_iff (fun _ _ _ => le_min_iff) hm).mp (le_refl m) a ha

/-- An observed maximum is above every observed value. -/
theorem le_max?_of_mem {α : Type} [LinearOrder α] {l : List α} {m a : α}
    (hm : l.max? = some m) (ha : a ∈ l) : a ≤ m :=
  (List.max?_le_iff (fun _ _ _ => max_le_iff) hm).mp (le_refl m) a ha

/-- C2 counterexample: on the two-row table `dfC2`, whose second row `drB`
has a missing `cr_num`, the filter stage under the default criteria drops
`drB`, so the output is not the whole table (not even in content); and on
the one-row table `[drNeg]`, whose `cr_num` is present but negative, the
hard-coded `0.0` minimum-CR default likewise drops the row. -/
theorem default_filter_counterexample :
    (defaultCriteria dfC2 = some cC2 ∧ drB ∈ dfC2 ∧ drB ∉ df_filt cC2 dfC2) ∧
    (defaultCriteria [drNeg] = some cNeg ∧ drNeg ∉ df_filt cNeg [drNeg]) :=
  ⟨⟨by decide, by decide, by decide⟩, ⟨by decide, by decide⟩⟩

/-- C2 (amended): on a table in which every record has present `ac`,
present `hp` and a present, nonnegative `cr_num`, the filter stage under
the default criteria returns the entire table unchanged. -/
theorem filter_default_id (df : List DerivedRecord) (c : FilterCriteria)
    (hpres : ∀ d ∈ df, (∃ a, d.base.ac = some a) ∧ (∃ h, d.base.hp = some h) ∧
      (∃ q, d.cr_num = some q ∧ 0 ≤ q))
    (hc : defaultCriteria df = some c) :
    df_filt c df = df := by
  unfold defaultCriteria at hc
  split at hc
  next mAC MAC mHP MHP MCR h1 h2 h3 h4 h5 =>
    rw [Option.some_inj] at hc
    subst hc
    unfold df_filt
    rw [if_neg (by simp)]
    rw [List.filter_eq_self]
    intro d hd
    obtain ⟨⟨a, ha⟩, ⟨hpv, hh⟩, ⟨q, hq, hq0⟩⟩ := hpres d hd
    rw [recordMask_eq_true_iff]
    refine ⟨⟨a, ha, ?_, ?_⟩, ⟨hpv, hh, ?_, ?_⟩, ⟨q, hq, hq0, ?_⟩⟩
    · exact min?_le_of_mem h1 (List.mem_filterMap.mpr ⟨d, hd, ha⟩)
    · exact le_max?_of_mem h2 (List.mem_filterMap.mpr ⟨d, hd, ha⟩)
    · exact min?_le_of_mem h3 (List.mem_filterMap.mpr ⟨d, hd, hh⟩)
    · exact le_max?_of_mem h4 (List.mem_filterMap.mpr ⟨d, hd, hh⟩)
    · exact le_max?_of_mem h5 (List.mem_filterMap.mpr ⟨d, hd, hq⟩)
  next => exact Option.noConfusion hc

/-- C2 witness: on the one-row table `[drGoblin]` (all cells present and
CR nonnegative) the default-criteria filter returns the table unchanged. -/
theorem filter_default_id_witness :
    df_filt cG [drGoblin] = [drGoblin] :=
  filter_default_id [drGoblin] cG
    (by
      intro d hd
      rw [List.mem_singleton] at hd
      subst hd
      exact ⟨⟨15, rfl⟩, ⟨7, rfl⟩, ⟨(1 : ℚ) / (4 : ℚ), rfl, by norm_num⟩⟩)
    rfl

/-- C9 counterexample: on the one-row table `[drNoAC]`, whose single row
has a missing survivability, fewer than 10 rows carry a present key, so
the NaN padding of `sort_values(...).head(10)` puts that row into BOTH
rendered rankings. -/
theorem top_bot_missing_counterexample :
    drNoAC.survivability = none ∧
    drNoAC ∈ nlargest 10 [drNoAC] ∧ drNoAC ∈ nsmallest 10 [drNoAC] := by
  refine ⟨rfl, ?_, ?_⟩ <;>
    simp [nlargest, nsmallest, rankable, unrankable, drNoAC]

/-- C9 (amended): a record whose survivability is missing never appears
in the top-10 or bottom-10 survivability tables provided at least 10
records of the table have a present survivability: the first 10 sorted
present-key rows then fill the result and the NaN padding is never
reached. -/
theorem missing_surv_not_ranked (df : List DerivedRecord) (d : DerivedRecord)
    (hmiss : d.survivability = none) (h10 : 10 ≤ (rankable df).length) :
    d ∉ nlargest 10 df ∧ d ∉ nsmallest 10 df := by
  have hlenD : 10 ≤ ((rankable df).mergeSort
      (fun a b => decide (survKey b ≤ survKey a))).length := by
    rw [List.length_mergeSort]; exact h10
  have hlenA : 10 ≤ ((rankable df).mergeSort
      (fun a b => decide (survKey a ≤ survKey b))).length := by
    rw [List.length_mergeSort]; exact h10
  constructor <;> intro hmem
  · unfold nlargest at hmem
    rw [List.take_append_of_le_length hlenD] at hmem
    have h1 := List.mem_of_mem_take hmem
    rw [List.mem_mergeSort] at h1
    have h2 := List.of_mem_filter h1
    rw [hmiss] at h2
    simp at h2
  · unfold nsmallest at hmem
    rw [List.take_append_of_le_length hlenA] at hmem
    have h1 := List.mem_of_mem_take hmem
    rw [List.mem_mergeSort] at h1
    have h2 := List.of_mem_filter h1
    rw [hmiss] at h2
    simp at h2

/-- C9 witness: with twenty present-key rows alongside it, the row with
missing survivability is ranked nowhere. -/
theorem missing_surv_not_ranked_witness :
    drNoAC ∉ nlargest 10 (df20 ++ [drNoAC]) ∧
    drNoAC ∉ nsmallest 10 (df20 ++ [drNoAC]) :=
  missing_surv_not_ranked (df20 ++ [drNoAC]) drNoAC rfl (by decide)

/-- In a list sorted descending by an integer key, an element found among
the first `k` positions is strictly exceeded by fewer than `k` elements of
the whole list. -/
theorem countP_gt_lt_of_sorted_take {α : Type} (key : α → Int) (l : List α)
    (k : Nat) (x : α) (hs : l.Pairwise fun p q => key q ≤ key p)
    (hx : x ∈ l.take k) :
    l.countP (fun y => decide (key x < key y)) < k := by
  induction l generalizing k with
  | nil => rw [List.take_nil] at hx; exact absurd hx (List.not_mem_nil x)
  | cons y t ih =>
    cases k with
    | zero => rw [List.take_zero] at hx; exact absurd hx (List.not_mem_nil x)
    | succ k =>
      rw [List.take_succ_cons] at hx
      rw [List.pairwise_cons] at hs
      obtain ⟨hy, ht⟩ := hs
      rw [List.countP_cons]
      rcases List.mem_cons.mp hx with rfl | hx'
      · have h0 : t.countP (fun z => decide (key x < key z)) = 0 := by
          rw [List.countP_eq_zero]
          intro z hz
          simpa using not_lt_of_ge (hy z hz)
        rw [h0]
        simp
      · have hlt := ih k ht hx'
        by_cases hxy : key x < key y <;> simp [hxy] <;> omega

/-- In a list sorted ascending by an integer key, an element found among
the first `k` positions strictly exceeds fewer than `k` elements of the
whole list. -/
theorem countP_lt_lt_of_sorted_take {α : Type} (key : α → Int) (l : List α)
    (k : Nat) (x : α) (hs : l.Pairwise fun p q => key p ≤ key q)
    (hx : x ∈ l.take k) :
    l.countP (fun y => decide (key y < key x)) < k := by
  induction l generalizing k with
  | nil => rw [List.take_nil] at hx; exact absurd hx (List.not_mem_nil x)
  | cons y t ih =>
    cases k with
    | zero => rw [List.take_zero] at hx; exact absurd hx (List.not_mem_nil x)
    | succ k =>
      rw [List.take_succ_cons] at hx
      rw [List.pairwise_cons] at hs
      obtain ⟨hy, ht⟩ := hs
      rw [List.countP_cons]
      rcases List.mem_cons.mp hx with rfl | hx'
      · have h0 : t.countP (fun z => decide (key z < key x)) = 0 := by
          rw [List.countP_eq_zero]
          intro z hz
          simpa using not_lt_of_ge (hy z hz)
        rw [h0]
        simp
      · have hlt := ih k ht hx'
        by_cases hxy : key y < key x <;> simp [hxy] <;> omega

/-- Every element of a list compares to a pivot in exactly one of three
ways, so the three counts partition the length. -/
theorem countP_three_way {α : Type} (key : α → Int) (x0 : Int) (l : List α) :
    l.countP (fun y => decide (key y < x0)) + l.countP (fun y => decide (key y = x0)) +
      l.countP (fun y => decide (x0 < key y)) = l.length := by
  induction l with
  | nil => simp
  | cons a t ih =>
    simp only [List.countP_cons, List.length_cons]
    rcases lt_trichotomy (key a) x0 with h | h | h
    · simp [h, ne_of_lt h, asymm h]
      omega
    · simp [h]
      omega
    · simp [h, ne_of_gt h, asymm h]
      omega

/-- With pairwise-distinct keys, at most one element carries the key of a
member. -/
theorem countP_key_eq_le_one {α : Type} (key : α → Int) (l : List α) (x : α)
    (hdist : l.Pairwise fun p q => key p ≠ key q) (hx : x ∈ l) :
    l.countP (fun y => decide (key y = key x)) ≤ 1 := by
  induction l with
  | nil => exact absurd hx (List.not_mem_nil x)
  | cons a t ih =>
    rw [List.pairwise_cons] at hdist
    obtain ⟨ha, ht⟩ := hdist
    rw [List.countP_cons]
    rcases List.mem_cons.mp hx with rfl | hx'
    · have h0 : t.countP (fun y => decide (key y = key x)) = 0 := by
        rw [List.countP_eq_zero]
        intro z hz
        simpa using fun e => ha z hz e.symm
      rw [h0]
      simp
    · have h1 := ih ht hx'
      have hne := ha x hx'
      simp [hne]
      omega

/-- C7: on a table of at least 20 records, all of whose survivability
values are present and pairwise distinct, the top-10 and bottom-10
survivability rankings are disjoint sets of records and the size of their
union equals min 20 (table size), namely 20. -/
theorem top_bot_disjoint_union (df : List DerivedRecord)
    (h20 : 20 ≤ df.length)
    (hall : ∀ d ∈ df, d.survivability.isSome = true)
    (hdist : df.Pairwise fun p q => p.survivability ≠ q.survivability) :
    (∀ d, d ∈ nlargest 10 df → d ∉ nsmallest 10 df) ∧
    ((nlargest 10 df).toFinset ∪ (nsmallest 10 df).toFinset).card =
      min 20 df.length := by
  have hrank : rankable df = df := by
    unfold rankable
    rw [List.filter_eq_self]
    exact hall
  have hdistK : df.Pairwise fun p q => survKey p ≠ survKey q := by
    refine List.Pairwise.imp_of_mem ?_ hdist
    intro p q hp hq hne hk
    obtain ⟨vp, hvp⟩ := Option.isSome_iff_exists.mp (hall p hp)
    obtain ⟨vq, hvq⟩ := Option.isSome_iff_exists.mp (hall q hq)
    apply hne
    rw [hvp, hvq]
    simp only [survKey, hvp, hvq, Option.getD_some] at hk
    rw [hk]
  have hunrank : unrankable df = [] := by
    unfold unrankable
    rw [List.filter_eq_nil_iff]
    intro d hd
    simp [hall d hd]
  have hnodup : df.Nodup :=
    hdist.imp fun hne he => hne (congrArg DerivedRecord.survivability he)
  have htransD : ∀ a b c1 : DerivedRecord,
      decide (survKey b ≤ survKey a) = true → decide (survKey c1 ≤ survKey b) = true →
      decide (survKey c1 ≤ survKey a) = true := by
    intro a b c1 hab hbc
    rw [decide_eq_true_eq] at *
    exact le_trans hbc hab
  have htotalD : ∀ a b : DerivedRecord,
      (decide (survKey b ≤ survKey a) || decide (survKey a ≤ survKey b)) = true := by
    intro a b
    rcases le_total (survKey b) (survKey a) with h | h <;> simp [h]
  have htransA : ∀ a b c1 : DerivedRecord,
      decide (survKey a ≤ survKey b) = true → decide (survKey b ≤ survKey c1) = true →
      decide (survKey a ≤ survKey c1) = true := by
    intro a b c1 hab hbc
    rw [decide_eq_true_eq] at *
    exact le_trans hab hbc
  have htotalA : ∀ a b : DerivedRecord,
      (decide (survKey a ≤ survKey b) || decide (survKey b ≤ survKey a)) = true := by
    intro a b
    rcases le_total (survKey a) (survKey b) with h | h <;> simp [h]
  have hsortD : (df.mergeSort fun a b => decide (survKey b ≤ survKey a)).Pairwise
      (fun p q => survKey q ≤ survKey p) :=
    (List.sorted_mergeSort htransD htotalD df).imp fun h => of_decide_eq_true h
  have hsortA : (df.mergeSort fun a b => decide (survKey a ≤ survKey b)).Pairwise
      (fun p q => survKey p ≤ survKey q) :=
    (List.sorted_mergeSort htransA htotalA df).imp fun h => of_decide_eq_true h
  have hpermD : List.Perm (df.mergeSort fun a b => decide (survKey b ≤ survKey a)) df :=
    List.mergeSort_perm df _
  have hpermA : List.Perm (df.mergeSort fun a b => decide (survKey a ≤ survKey b)) df :=
    List.mergeSort_perm df _
  unfold nlargest nsmallest
  rw [hrank, hunrank]
  simp only [List.append_nil]
  have hdisj : ∀ d,
      d ∈ (df.mergeSort fun a b => decide (survKey b ≤ survKey a)).take 10 →
      d ∉ (df.mergeSort fun a b => decide (survKey a ≤ survKey b)).take 10 := by
    intro d hdT hdA
    have hgt : df.countP (fun y => decide (survKey d < survKey y)) < 10 := by
      have h := countP_gt_lt_of_sorted_take survKey _ 10 d hsortD hdT
      rwa [hpermD.countP_eq] at h
    have hlt : df.countP (fun y => decide (survKey y < survKey d)) < 10 := by
      have h := countP_lt_lt_of_sorted_take survKey _ 10 d hsortA hdA
      rwa [hpermA.countP_eq] at h
    have hdmem : d ∈ df := hpermD.mem_iff.mp (List.mem_of_mem_take hdT)
    have heq1 := countP_key_eq_le_one survKey df d hdistK hdmem
    have htot := countP_three_way survKey (survKey d) df
    omega
  refine ⟨hdisj, ?_⟩
  have hnodupD := hpermD.nodup_iff.mpr hnodup
  have hnodupA := hpermA.nodup_iff.mpr hnodup
  have htD := (List.take_sublist 10 _).nodup hnodupD
  have htA := (List.take_sublist 10 _).nodup hnodupA
  rw [Finset.card_union_of_disjoint]
  · rw [List.toFinset_card_of_nodup htD, List.toFinset_card_of_nodup htA]
    rw [List.length_take, List.length_take, List.length_mergeSort, List.length_mergeSort]
    omega
  · rw [Finset.disjoint_left]
    intro a haT haA
    exact hdisj a (List.mem_toFinset.mp haT) (List.mem_toFinset.mp haA)

/-- C7 witness: instantiated at the twenty-row table `df20`. -/
theorem top_bot_disjoint_union_witness :
    20 ≤ df20.length ∧
    ((∀ d, d ∈ nlargest 10 df20 → d ∉ nsmallest 10 df20) ∧
     ((nlargest 10 df20).toFinset ∪ (nsmallest 10 df20).toFinset).card =
       min 20 df20.length) :=
  ⟨by decide, top_bot_disjoint_union df20 (by decide) (by decide) (by decide)⟩
